import Mathlib

/-!
Shallow embedding of the Tents-and-Trees SAT encoder (`demo.py`).

This file embeds the puzzle loader `parse_puzzle`, the constraint encoder
`build_solver`, and the display routine `solve_and_display` of the repository
as executable Lean definitions, and proves the specified properties of the
parser, the emitted constraint set, and the models admitted by it.

Conventions of the embedding:
* Python exceptions raised by the loader become `Except PyError`;
  the fallible list indexing performed by the encoder becomes `Option`.
* A Z3 `Bool` variable `p_{i+1}_{j+1}` is the atom `Atom.var i j`
  (0-based indices, as in the Python matrix `p`).
* The Z3 expressions the encoder asserts are captured by the `Formula`
  constructors, one per assertion shape occurring in `build_solver`
  (`p == False`, `AtMost`, `AtLeast`, `Or(Not _, Not _)`,
  `Implies(_, Or(consts))`, `Or(vars)`); a model is an `Assignment`
  and satisfaction is `evalFormula`.
-/

/-- Errors raised by the Python loader: `ValueError` (from the explicit
`raise` and from `int()`), and `IndexError` (from `tokens[0]` on empty
input). -/
inductive PyError where
  | valueError (tok : String)
  | indexError
deriving DecidableEq, Repr

/-- Digit part of a Python integer literal: one or more ASCII digits, with
a single underscore permitted only between two digits (PEP 515 grouping,
as accepted by `int()`: `int("1_2") == 12`, while a leading, trailing or
doubled underscore raises `ValueError`). -/
def pyDigits : List Char → Bool
  | [] => false
  | [c] => c.isDigit
  | c :: '_' :: rest => c.isDigit && pyDigits rest
  | c :: rest => c.isDigit && pyDigits rest

/-- Result of Python `int(s)` on a whitespace-free token: an optional sign
followed by one or more (possibly underscore-grouped) ASCII digits; `none`
models the `ValueError` that `int` raises otherwise. This under-approximates
`int()`, which additionally accepts non-ASCII Unicode decimal digits: every
token accepted here is accepted by `int()` with the same value, and the
theorems below rely on it only for sufficiency of acceptance, never to
characterise exactly which tokens the program rejects. -/
def pyInt (s : String) : Option Int :=
  let cs := s.toList
  let signDigits : Int × List Char :=
    match cs with
    | '-' :: rest => (-1, rest)
    | '+' :: rest => (1, rest)
    | _ => (1, cs)
  if pyDigits signDigits.2 then
    some (signDigits.1 *
      (((signDigits.2.filter (fun c => c ≠ '_')).foldl
        (fun acc c => acc * 10 + (c.toNat - 48)) 0 : Nat) : Int))
  else
    none

/-- The tuple returned by `parse_puzzle`:
`(nrows, ncols, row_targets, col_targets, board, tree_positions)`.
`tree_positions` is a Python set of distinct 1-based coordinates; it is kept
here as the list enumerated in row-major order by the set comprehension. -/
structure Grid where
  nrows : Nat
  ncols : Nat
  row_targets : List Int
  col_targets : List Int
  board : List (List String)
  tree_positions : List (Nat × Nat)
deriving DecidableEq, Repr

/-- The empty string (used as the irrelevant default of safe head/index
operations that the Python code performs only on nonempty lists). -/
def emptyTok : String := ""

/-- The obstacle ("tree") cell marker. -/
def treeTok : String := "T"

/-- Message of the explicit `raise ValueError` for a short data row. -/
def badLineTok : String := "Bad input line"

/-- Whitespace in Python `str` semantics, as used by `str.strip()` and by
`re` pattern `\s` on `str`: the ASCII whitespace and separator controls
plus the Unicode space characters. -/
def pyIsSpace (c : Char) : Bool :=
  c == ' ' || c == '\t' || c == '\n' || c == '\r' || c == '\x0b' ||
  c == '\x0c' || c == '\x1c' || c == '\x1d' || c == '\x1e' || c == '\x1f' ||
  c == '\x85' || c == '\xa0' || c.toNat == 0x1680 ||
  (decide (0x2000 ≤ c.toNat) && decide (c.toNat ≤ 0x200a)) ||
  c.toNat == 0x2028 || c.toNat == 0x2029 || c.toNat == 0x202f ||
  c.toNat == 0x205f || c.toNat == 0x3000

/-- Line-break characters recognised by Python `str.splitlines()`
(`\r\n` is treated as a single break by the function below). -/
def isLineBreak (c : Char) : Bool :=
  c == '\n' || c == '\r' || c == '\x0b' || c == '\x0c' || c == '\x1c' ||
  c == '\x1d' || c == '\x1e' || c == '\x85' ||
  c.toNat == 0x2028 || c.toNat == 0x2029

/-- Worker for `pySplitlines`: accumulates the current line (reversed) and
emits it at each line break; a trailing break produces no empty final
line, as in Python. -/
def pySplitlinesAux : List Char → List Char → List (List Char)
  | [], acc => if acc.isEmpty then [] else [acc.reverse]
  | '\r' :: '\n' :: rest, acc => acc.reverse :: pySplitlinesAux rest []
  | c :: rest, acc =>
    if isLineBreak c then acc.reverse :: pySplitlinesAux rest []
    else pySplitlinesAux rest (c :: acc)

/-- Python `str.splitlines()`. -/
def pySplitlines (s : String) : List String :=
  (pySplitlinesAux s.toList []).map (fun l => String.mk l)

/-- Python `str.strip()`: drop leading and trailing whitespace. -/
def pyStrip (s : String) : String :=
  String.mk (((s.toList.dropWhile pyIsSpace).reverse.dropWhile pyIsSpace).reverse)

/-- Line splitting and tokenisation performed by `parse_puzzle`: split the
text into lines with `splitlines()`, strip them, drop blank ones, and
split each remaining line on runs of whitespace (`re.split` of `\s+` on a
stripped line, which yields its maximal nonempty non-whitespace runs). -/
def tokenize (text : String) : List (List String) :=
  (((pySplitlines text).map pyStrip).filter (fun l => l ≠ emptyTok)).map
    (fun line => (line.split pyIsSpace).filter (fun t => t ≠ emptyTok))

/-- Conversion `int(tok)` inside the loader: a failed conversion raises `ValueError`. -/
def intTok (s : String) : Except PyError Int :=
  match pyInt s with
  | some n => Except.ok n
  | none => Except.error (PyError.valueError s)

/-- Left-to-right mapping that stops at the first raised error, as a Python
`for` loop (or eager `map`) does. -/
def mapExcept (f : α → Except ε β) : List α → Except ε (List β)
  | [] => Except.ok []
  | x :: xs =>
    match f x with
    | Except.error e => Except.error e
    | Except.ok y =>
      match mapExcept f xs with
      | Except.error e => Except.error e
      | Except.ok ys => Except.ok (y :: ys)

/-- One iteration of the data-row loop of `parse_puzzle`: reject a row with
fewer than `ncols + 1` tokens, convert the leading row target with `int`,
and keep the slice `row[1:1+ncols]` as the board row. -/
def parseRow (ncols : Nat) (row : List String) : Except PyError (Int × List String) :=
  if row.length < ncols + 1 then
    Except.error (PyError.valueError badLineTok)
  else
    match pyInt (row.headD emptyTok) with
    | some t => Except.ok (t, (row.drop 1).take ncols)
    | none => Except.error (PyError.valueError (row.headD emptyTok))

/-- The set comprehension collecting 1-based coordinates of `"T"` cells,
enumerated in row-major order. Inside `parse_puzzle` every access
`board[i][j]` is in range, so the default of the safe access is inert. -/
def tree_positions_of (nrows ncols : Nat) (board : List (List String)) :
    List (Nat × Nat) :=
  ((List.range nrows).map (fun i =>
    (List.range ncols).filterMap (fun j =>
      if (board.getD i []).getD j emptyTok = treeTok then some (i + 1, j + 1)
      else none))).flatten

/-- The loader body after tokenisation: `tokens[0]` (raising `IndexError`
when there are no lines), the column-target conversion, and the data-row
loop. -/
def parseTokens : List (List String) → Except PyError Grid
  | [] => Except.error PyError.indexError
  | header :: rest =>
    match mapExcept intTok header with
    | Except.error e => Except.error e
    | Except.ok col_targets =>
      match mapExcept (parseRow col_targets.length) rest with
      | Except.error e => Except.error e
      | Except.ok parsed =>
        Except.ok
          { nrows := parsed.length
            ncols := col_targets.length
            row_targets := parsed.map Prod.fst
            col_targets := col_targets
            board := parsed.map Prod.snd
            tree_positions :=
              tree_positions_of parsed.length col_targets.length
                (parsed.map Prod.snd) }

/-- Full `parse_puzzle` on the file contents. -/
def parse_puzzle (text : String) : Except PyError Grid :=
  parseTokens (tokenize text)

/-- Returns `true` exactly on `Except.ok`. -/
def exceptOk : Except ε α → Bool
  | Except.ok _ => true
  | Except.error _ => false

/-- A Z3 boolean term occurring in the encoder's assertions: either the
placement variable `p[i][j]` (named `p_{i+1}_{j+1}` in the script) or a
`BoolVal` constant. -/
inductive Atom where
  | var (i j : Nat)
  | boolVal (b : Bool)
deriving DecidableEq, Repr

/-- The Z3 expressions `build_solver` asserts, one constructor per `s.add`
shape in the script: `p == False`, `AtMost(vars, k)`, `AtLeast(vars, k)`,
`Or(Not x, Not y)`, `Implies(x, Or(consts))` and `Or(vars)`. -/
inductive Formula where
  | eqFalse (x : Atom)
  | atMost (vs : List Atom) (k : Int)
  | atLeast (vs : List Atom) (k : Int)
  | orNotNot (x y : Atom)
  | impliesOr (x : Atom) (ds : List Atom)
  | orAtoms (vs : List Atom)
deriving DecidableEq, Repr

/-- Returns `true` exactly on the tree-to-tent pairing shape `Or(vars)`. -/
def Formula.isOrAtoms : Formula → Bool
  | .orAtoms _ => true
  | _ => false

/-- A truth assignment to the placement variables (a solver model). -/
def Assignment : Type := Nat → Nat → Bool

def evalAtom (a : Assignment) : Atom → Bool
  | .var i j => a i j
  | .boolVal b => b

/-- Number of true atoms in a list (argument of the cardinality shapes). -/
def countTrue (a : Assignment) (vs : List Atom) : Nat :=
  vs.countP (fun x => evalAtom a x)

def evalFormula (a : Assignment) : Formula → Bool
  | .eqFalse x => evalAtom a x == false
  | .atMost vs k => decide ((countTrue a vs : Int) ≤ k)
  | .atLeast vs k => decide (k ≤ (countTrue a vs : Int))
  | .orNotNot x y => (!evalAtom a x) || (!evalAtom a y)
  | .impliesOr x ds => (!evalAtom a x) || ds.any (fun d => evalAtom a d)
  | .orAtoms vs => vs.any (fun v => evalAtom a v)

/-- A model of the whole constraint set. -/
def satisfies (a : Assignment) (cs : List Formula) : Prop :=
  ∀ f ∈ cs, evalFormula a f = true

instance (a : Assignment) (cs : List Formula) : Decidable (satisfies a cs) :=
  List.decidableBAll _ cs

/-- The variable matrix `p`: `p[i][j]` is `Atom.var i j`. -/
def pMatrix (nrows ncols : Nat) : List (List Atom) :=
  (List.range nrows).map (fun i => (List.range ncols).map (fun j => Atom.var i j))

/-- The indexing `p[i][j]`, fallible as in Python (the encoder only ever
uses indices produced by `range` loops, bounds-clipped neighbour
generators, or the 1-based tree coordinates minus one). -/
def getP (p : List (List Atom)) (i j : Nat) : Option Atom :=
  p[i]?.bind (fun row => row[j]?)

/-- Analogue of `mapExcept` for `Option`, mirroring a loop whose body may hit an
out-of-range list index. -/
def mapOption (f : α → Option β) : List α → Option (List β)
  | [] => some []
  | x :: xs =>
    match f x with
    | none => none
    | some y =>
      match mapOption f xs with
      | none => none
      | some ys => some (y :: ys)

/-- The offsets `(di, dj)` enumerated by the nested loops of
`all_neighbors` (`di, dj ∈ {-1,0,1}`, skipping `(0,0)`), in loop order. -/
def kingOffsets : List (Int × Int) :=
  [(-1, -1), (-1, 0), (-1, 1), (0, -1), (0, 1), (1, -1), (1, 0), (1, 1)]

/-- The generator `all_neighbors(i, j)`: the up-to-8 king-move neighbours
of `(i, j)` clipped to the grid. -/
def all_neighbors (nrows ncols i j : Nat) : List (Nat × Nat) :=
  kingOffsets.filterMap (fun d =>
    let ni : Int := (i : Int) + d.1
    let nj : Int := (j : Int) + d.2
    if 0 ≤ ni ∧ ni < (nrows : Int) ∧ 0 ≤ nj ∧ nj < (ncols : Int) then
      some (ni.toNat, nj.toNat)
    else none)

/-- The generator `orth_neighbors(i, j)`: the up-to-4 orthogonal neighbours
of `(i, j)` clipped to the grid, in the source's offset order. -/
def orth_neighbors (nrows ncols i j : Nat) : List (Nat × Nat) :=
  ([(-1, 0), (1, 0), (0, -1), (0, 1)] : List (Int × Int)).filterMap (fun d =>
    let ni : Int := (i : Int) + d.1
    let nj : Int := (j : Int) + d.2
    if 0 ≤ ni ∧ ni < (nrows : Int) ∧ 0 ≤ nj ∧ nj < (ncols : Int) then
      some (ni.toNat, nj.toNat)
    else none)

/-- Constraint block 1: `p[ti-1][tj-1] == False` for every tree. -/
def exclusionSection (p : List (List Atom)) (trees : List (Nat × Nat)) :
    Option (List Formula) :=
  mapOption (fun t => (getP p (t.1 - 1) (t.2 - 1)).map Formula.eqFalse) trees

/-- Constraint block 2a: per row, `AtMost` then `AtLeast` of that row's
variables against `row_targets[i]`. -/
def rowSection (p : List (List Atom)) (nrows ncols : Nat)
    (row_targets : List Int) : Option (List Formula) :=
  (mapOption (fun i =>
    match mapOption (fun j => getP p i j) (List.range ncols) with
    | none => none
    | some vs =>
      match row_targets[i]? with
      | none => none
      | some t => some [Formula.atMost vs t, Formula.atLeast vs t])
    (List.range nrows)).map List.flatten

/-- Constraint block 2b: per column, `AtMost` then `AtLeast` of that
column's variables against `col_targets[j]`. -/
def colSection (p : List (List Atom)) (nrows ncols : Nat)
    (col_targets : List Int) : Option (List Formula) :=
  (mapOption (fun j =>
    match mapOption (fun i => getP p i j) (List.range nrows) with
    | none => none
    | some vs =>
      match col_targets[j]? with
      | none => none
      | some t => some [Formula.atMost vs t, Formula.atLeast vs t])
    (List.range ncols)).map List.flatten

/-- Constraint block 3: `Or(Not p[i][j], Not p[ni][nj])` for every cell and
every in-bounds king-move neighbour. -/
def adjacencySection (p : List (List Atom)) (nrows ncols : Nat) :
    Option (List Formula) :=
  ((mapOption (fun i =>
    (mapOption (fun j =>
      mapOption (fun nb =>
        match getP p i j with
        | none => none
        | some x =>
          match getP p nb.1 nb.2 with
          | none => none
          | some y => some (Formula.orNotNot x y))
        (all_neighbors nrows ncols i j))
      (List.range ncols)).map List.flatten)
    (List.range nrows)).map List.flatten)

/-- Constraint block 4a: `Implies(p[i][j], Or(*tree_consts))` where
`tree_consts` holds one `BoolVal` per in-bounds orthogonal neighbour,
true iff that neighbour's 1-based coordinate is a tree. -/
def tentTreeSection (p : List (List Atom)) (nrows ncols : Nat)
    (trees : List (Nat × Nat)) : Option (List Formula) :=
  ((mapOption (fun i =>
    mapOption (fun j =>
      match getP p i j with
      | none => none
      | some x =>
        some (Formula.impliesOr x
          ((orth_neighbors nrows ncols i j).map (fun nb =>
            Atom.boolVal (decide ((nb.1 + 1, nb.2 + 1) ∈ trees))))))
      (List.range ncols))
    (List.range nrows)).map List.flatten)

/-- Constraint block 4b: for every tree, `Or` of the placement variables of
its in-bounds orthogonal neighbours — added only when that neighbour list
is nonempty (`if neigh_tents:`). -/
def treeTentSection (p : List (List Atom)) (nrows ncols : Nat)
    (trees : List (Nat × Nat)) : Option (List Formula) :=
  ((mapOption (fun t =>
    match mapOption (fun nb => getP p nb.1 nb.2)
        (orth_neighbors nrows ncols (t.1 - 1) (t.2 - 1)) with
    | none => none
    | some neigh =>
      if neigh.isEmpty then some [] else some [Formula.orAtoms neigh])
    trees).map List.flatten)

/-- Encoder `build_solver`: declares the `nrows × ncols` variable matrix and
asserts the five constraint blocks in source order; `none` models an
uncaught `IndexError` during encoding. -/
def build_solver (g : Grid) : Option (List Formula) :=
  let p := pMatrix g.nrows g.ncols
  match exclusionSection p g.tree_positions with
  | none => none
  | some e =>
    match rowSection p g.nrows g.ncols g.row_targets with
    | none => none
    | some r =>
      match colSection p g.nrows g.ncols g.col_targets with
      | none => none
      | some c =>
        match adjacencySection p g.nrows g.ncols with
        | none => none
        | some adj =>
          match tentTreeSection p g.nrows g.ncols g.tree_positions with
          | none => none
          | some tt =>
            match treeTentSection p g.nrows g.ncols g.tree_positions with
            | none => none
            | some tr => some (e ++ r ++ c ++ adj ++ tt ++ tr)

/-- The variable list `[p[i][j] for j in range(ncols)]` of row `i`. -/
def rowVars (ncols i : Nat) : List Atom :=
  (List.range ncols).map (fun j => Atom.var i j)

/-- The variable list `[p[i][j] for i in range(nrows)]` of column `j`. -/
def colVars (nrows j : Nat) : List Atom :=
  (List.range nrows).map (fun i => Atom.var i j)

/-- Closed form of constraint block 1. -/
def exclusionConstraints (trees : List (Nat × Nat)) : List Formula :=
  trees.map (fun t => Formula.eqFalse (Atom.var (t.1 - 1) (t.2 - 1)))

/-- Closed form of constraint block 2a. -/
def rowConstraints (nrows ncols : Nat) (rt : List Int) : List Formula :=
  ((List.range nrows).map (fun i =>
    [Formula.atMost (rowVars ncols i) (rt.getD i 0),
     Formula.atLeast (rowVars ncols i) (rt.getD i 0)])).flatten

/-- Closed form of constraint block 2b. -/
def colConstraints (nrows ncols : Nat) (ct : List Int) : List Formula :=
  ((List.range ncols).map (fun j =>
    [Formula.atMost (colVars nrows j) (ct.getD j 0),
     Formula.atLeast (colVars nrows j) (ct.getD j 0)])).flatten

/-- Closed form of constraint block 3. -/
def adjacencyConstraints (r c : Nat) : List Formula :=
  ((List.range r).map (fun i =>
    ((List.range c).map (fun j =>
      (all_neighbors r c i j).map (fun nb =>
        Formula.orNotNot (Atom.var i j) (Atom.var nb.1 nb.2)))).flatten)).flatten

/-- Closed form of constraint block 4a. -/
def tentTreeConstraints (r c : Nat) (trees : List (Nat × Nat)) : List Formula :=
  ((List.range r).map (fun i =>
    (List.range c).map (fun j =>
      Formula.impliesOr (Atom.var i j)
        ((orth_neighbors r c i j).map (fun nb =>
          Atom.boolVal (decide ((nb.1 + 1, nb.2 + 1) ∈ trees))))))).flatten

/-- Closed form of constraint block 4b. -/
def treeTentConstraints (r c : Nat) (trees : List (Nat × Nat)) : List Formula :=
  (trees.map (fun t =>
    if ((orth_neighbors r c (t.1 - 1) (t.2 - 1)).map
          (fun nb => Atom.var nb.1 nb.2)).isEmpty then
      ([] : List Formula)
    else
      [Formula.orAtoms ((orth_neighbors r c (t.1 - 1) (t.2 - 1)).map
        (fun nb => Atom.var nb.1 nb.2))])).flatten

/-- Closed form of the whole constraint set, in assertion order. -/
def constraintsOf (g : Grid) : List Formula :=
  exclusionConstraints g.tree_positions ++
  rowConstraints g.nrows g.ncols g.row_targets ++
  colConstraints g.nrows g.ncols g.col_targets ++
  adjacencyConstraints g.nrows g.ncols ++
  tentTreeConstraints g.nrows g.ncols g.tree_positions ++
  treeTentConstraints g.nrows g.ncols g.tree_positions

/-- The shape conditions under which every list access of `build_solver`
is in range: target lists match the dimensions and the 1-based tree
coordinates point into the variable matrix. -/
def EncoderReady (g : Grid) : Prop :=
  g.row_targets.length = g.nrows ∧ g.col_targets.length = g.ncols ∧
  ∀ t ∈ g.tree_positions, t.1 - 1 < g.nrows ∧ t.2 - 1 < g.ncols

instance (g : Grid) : Decidable (EncoderReady g) := by
  unfold EncoderReady
  exact instDecidableAnd

/-- A well-formed grid per the data model: positive dimensions, target
lists matching the dimensions, and 1-based obstacle coordinates lying in
`[1,rows] × [1,cols]`. -/
def WellFormed (g : Grid) : Prop :=
  1 ≤ g.nrows ∧ 1 ≤ g.ncols ∧
  g.row_targets.length = g.nrows ∧ g.col_targets.length = g.ncols ∧
  ∀ t ∈ g.tree_positions, 1 ≤ t.1 ∧ t.1 ≤ g.nrows ∧ 1 ≤ t.2 ∧ t.2 ≤ g.ncols

instance (g : Grid) : Decidable (WellFormed g) := by
  unfold WellFormed
  exact instDecidableAnd

/-- A 1×2 grid: a tree at (1,1), one tent required in row 1, none in
column 1 and one in column 2. Its unique model places the tent at (1,2). -/
def demoGrid : Grid :=
  { nrows := 1, ncols := 2, row_targets := [1], col_targets := [0, 1],
    board := [[treeTok, "."]], tree_positions := [(1, 1)] }

/-- The model of `demoGrid`: the single tent at 0-based cell (0,1). -/
def demoModel : Assignment := fun i j => decide (i = 0 ∧ j = 1)

/-- Constraint set of `demoGrid` (the encoder succeeds on it). -/
def demoCs : List Formula := (build_solver demoGrid).getD []

/-- The degenerate 1×1 grid whose single cell is a tree, with zero
targets (the spec's second scenario). -/
def oneCellTreeGrid : Grid :=
  { nrows := 1, ncols := 1, row_targets := [0], col_targets := [0],
    board := [[treeTok]], tree_positions := [(1, 1)] }

/-- The all-false assignment. -/
def allFalse : Assignment := fun _ _ => false

/-- The three verdicts `solver.check()` can return. -/
inductive Z3Result where
  | sat
  | unsat
  | unknown
deriving DecidableEq, Repr

/-- Text `str(result)` as interpolated into the status line. -/
def resultText : Z3Result → String
  | .sat => "sat"
  | .unsat => "unsat"
  | .unknown => "unknown"

/-- The message of the non-`sat` branch of `solve_and_display`. -/
def noSolutionLine : String := "No solution found."

/-- The lines printed by `solve_and_display` after `solver.check()`: the
status line (verdict and elapsed time interpolated), then either the
rendered board (when the verdict is `sat`) or `"No solution found."`.
The board rendering is abstracted as a parameter; the claim concerns only
the non-`sat` outcomes. The function is total: no verdict is thrown. -/
def solveOutput (result : Z3Result) (timeText : String)
    (boardLines : List String) : List String :=
  ("Z3 status: " ++ resultText result ++ ", time: " ++ timeText ++ " sec") ::
    (if result = Z3Result.sat then boardLines else [noSolutionLine])

deriving instance DecidableEq for Except

/-- The grid the loader returns for tokens `[["1"], ["0", ".", "X"]]`:
the data row has 3 tokens against `cols + 1 = 2`, and the extra token
is silently dropped. -/
def extraTokenGrid : Grid :=
  { nrows := 1, ncols := 1, row_targets := [0], col_targets := [1],
    board := [["."]], tree_positions := [] }

/-- The grid the loader returns for tokens `[["0", "0"], ["-1", ".", "."]]`:
the negative row target `-1` is accepted by `int`. -/
def negTargetGrid : Grid :=
  { nrows := 1, ncols := 2, row_targets := [-1], col_targets := [0, 0],
    board := [[".", "."]], tree_positions := [] }

/-- The grid the loader returns for tokens `[["1"], ["0", "T"]]`. -/
def parsedTreeGrid : Grid :=
  { nrows := 1, ncols := 1, row_targets := [0], col_targets := [1],
    board := [[treeTok]], tree_positions := [(1, 1)] }

/-! The remainder of the file proves the stated properties of the
definitions above: general lemmas first, then one theorem per claim
(with its witness or counterexample where applicable). -/

theorem mapOption_eq_some_map {α β : Type} {f : α → Option β} {g : α → β} :
    ∀ {xs : List α}, (∀ x ∈ xs, f x = some (g x)) → mapOption f xs = some (xs.map g)
  | [], _ => rfl
  | x :: xs, h => by
    have hx : f x = some (g x) := h x (List.mem_cons_self x xs)
    have ih : mapOption f xs = some (xs.map g) :=
      mapOption_eq_some_map (fun y hy => h y (List.mem_cons_of_mem x hy))
    simp [mapOption, hx, ih]

theorem mapExcept_eq_ok_map {α β : Type} {ε : Type} {f : α → Except ε β} {g : α → β} :
    ∀ {xs : List α}, (∀ x ∈ xs, f x = Except.ok (g x)) →
      mapExcept f xs = Except.ok (xs.map g)
  | [], _ => rfl
  | x :: xs, h => by
    have hx : f x = Except.ok (g x) := h x (List.mem_cons_self x xs)
    have ih : mapExcept f xs = Except.ok (xs.map g) :=
      mapExcept_eq_ok_map (fun y hy => h y (List.mem_cons_of_mem x hy))
    simp [mapExcept, hx, ih]

theorem mapExcept_ok_iff {α β : Type} {ε : Type} {f : α → Except ε β} :
    ∀ {xs : List α}, exceptOk (mapExcept f xs) = true ↔ ∀ x ∈ xs, exceptOk (f x) = true
  | [] => by simp [mapExcept, exceptOk]
  | x :: xs => by
    cases hx : f x with
    | error e => simp [mapExcept, hx, exceptOk]
    | ok y =>
      cases hxs : mapExcept f xs with
      | error e =>
        have := @mapExcept_ok_iff _ _ _ f xs
        simp [mapExcept, hx, hxs, exceptOk] at this ⊢
        exact this
      | ok ys =>
        have := @mapExcept_ok_iff _ _ _ f xs
        simp [mapExcept, hx, hxs, exceptOk] at this ⊢
        exact this

theorem mapExcept_error_mem {α β : Type} {ε : Type} {f : α → Except ε β} {e : ε} :
    ∀ {xs : List α}, mapExcept f xs = Except.error e → ∃ x ∈ xs, f x = Except.error e
  | [], h => by simp [mapExcept] at h
  | x :: xs, h => by
    revert h
    cases hx : f x with
    | error e2 =>
      intro h
      simp [mapExcept, hx] at h
      exact ⟨x, List.mem_cons_self x xs, by rw [hx, h]⟩
    | ok y =>
      cases hxs : mapExcept f xs with
      | error e2 =>
        intro h
        simp [mapExcept, hx, hxs] at h
        obtain ⟨z, hz, hfz⟩ := mapExcept_error_mem (h ▸ hxs)
        exact ⟨z, List.mem_cons_of_mem x hz, hfz⟩
      | ok ys => intro h; simp [mapExcept, hx, hxs] at h

theorem mapExcept_ok_mem {α β : Type} {ε : Type} {f : α → Except ε β} :
    ∀ {xs : List α} {ys : List β}, mapExcept f xs = Except.ok ys →
      ∀ y ∈ ys, ∃ x ∈ xs, f x = Except.ok y
  | [], ys, h => by
    simp only [mapExcept, Except.ok.injEq] at h
    subst h
    intro y hy
    exact absurd hy (List.not_mem_nil y)
  | x :: xs, ys, h => by
    revert h
    cases hx : f x with
    | error e2 => intro h; simp [mapExcept, hx] at h
    | ok y =>
      cases hxs : mapExcept f xs with
      | error e2 => intro h; simp [mapExcept, hx, hxs] at h
      | ok zs =>
        intro h
        simp [mapExcept, hx, hxs] at h
        intro w hw
        rw [← h] at hw
        rcases List.mem_cons.1 hw with rfl | hw2
        · exact ⟨x, List.mem_cons_self x xs, hx⟩
        · obtain ⟨z, hz, hfz⟩ := mapExcept_ok_mem hxs w hw2
          exact ⟨z, List.mem_cons_of_mem x hz, hfz⟩

theorem getElem?_eq_some_getD {α : Type} {l : List α} {i : Nat} (d : α)
    (h : i < l.length) : l[i]? = some (l.getD i d) := by
  rw [List.getD_eq_getElem?_getD]
  cases hx : l[i]? with
  | none => rw [List.getElem?_eq_none_iff] at hx; omega
  | some v => rfl

/-- Access `p[i][j]` on the declared matrix: defined exactly when both indices are
in range, in which case it is the placement variable of cell `(i, j)`. -/
theorem getP_pMatrix (r c i j : Nat) :
    getP (pMatrix r c) i j = if i < r ∧ j < c then some (Atom.var i j) else none := by
  unfold getP pMatrix
  rcases Nat.lt_or_ge i r with hi | hi
  · rw [List.getElem?_map, List.getElem?_range hi]
    rcases Nat.lt_or_ge j c with hj | hj
    · simp [List.getElem?_map, List.getElem?_range hj, hi, hj]
    · have hjn : (List.map (fun j => Atom.var i j) (List.range c))[j]? = none :=
        List.getElem?_eq_none_iff.2 (by simpa using hj)
      simp [hjn, hi, Nat.not_lt.2 hj]
  · have hin :
        ((List.range r).map (fun i => (List.range c).map (fun j => Atom.var i j)))[i]? =
          none :=
      List.getElem?_eq_none_iff.2 (by simpa using hi)
    simp [hin, Nat.not_lt.2 hi]

/-- Clipped-offset step of both neighbour generators: the yielded pair is
exactly the in-bounds translate of `(i, j)` by `(di, dj)`. -/
theorem clipOffset_eq_some {r c i j : Nat} {di dj : Int} {ni nj : Nat} :
    ((if 0 ≤ (i : Int) + di ∧ (i : Int) + di < (r : Int) ∧
          0 ≤ (j : Int) + dj ∧ (j : Int) + dj < (c : Int) then
        some (((i : Int) + di).toNat, ((j : Int) + dj).toNat)
      else none) = some (ni, nj)) ↔
      ((ni : Int) = (i : Int) + di ∧ (nj : Int) = (j : Int) + dj ∧
        ni < r ∧ nj < c) := by
  split
  · simp only [Option.some.injEq, Prod.mk.injEq]
    omega
  · constructor
    · intro h
      exact absurd h (by simp)
    · intro h
      exfalso
      omega

/-- Membership in `all_neighbors`: exactly the in-bounds cells at king-move
(Chebyshev) distance one from `(i, j)`. -/
theorem mem_all_neighbors {r c i j ni nj : Nat} :
    (ni, nj) ∈ all_neighbors r c i j ↔
      ni < r ∧ nj < c ∧ ¬(ni = i ∧ nj = j) ∧
        (ni ≤ i + 1 ∧ i ≤ ni + 1) ∧ (nj ≤ j + 1 ∧ j ≤ nj + 1) := by
  simp only [all_neighbors, kingOffsets, List.mem_filterMap, List.mem_cons,
    List.not_mem_nil, or_false]
  constructor
  · rintro ⟨d, hd, hsome⟩
    rcases hd with rfl | rfl | rfl | rfl | rfl | rfl | rfl | rfl <;>
      · rw [clipOffset_eq_some] at hsome
        omega
  · rintro ⟨h1, h2, h3, h4, h5⟩
    have hcase : ((ni : Int) = (i : Int) - 1 ∨ (ni : Int) = (i : Int) ∨
        (ni : Int) = (i : Int) + 1) ∧ ((nj : Int) = (j : Int) - 1 ∨
        (nj : Int) = (j : Int) ∨ (nj : Int) = (j : Int) + 1) := by omega
    obtain ⟨hni, hnj⟩ := hcase
    rcases hni with hni | hni | hni <;> rcases hnj with hnj | hnj | hnj
    · exact ⟨(-1, -1), by simp, by rw [clipOffset_eq_some]; omega⟩
    · exact ⟨(-1, 0), by simp, by rw [clipOffset_eq_some]; omega⟩
    · exact ⟨(-1, 1), by simp, by rw [clipOffset_eq_some]; omega⟩
    · exact ⟨(0, -1), by simp, by rw [clipOffset_eq_some]; omega⟩
    · exact absurd (by omega : ni = i ∧ nj = j) h3
    · exact ⟨(0, 1), by simp, by rw [clipOffset_eq_some]; omega⟩
    · exact ⟨(1, -1), by simp, by rw [clipOffset_eq_some]; omega⟩
    · exact ⟨(1, 0), by simp, by rw [clipOffset_eq_some]; omega⟩
    · exact ⟨(1, 1), by simp, by rw [clipOffset_eq_some]; omega⟩

/-- Membership in `orth_neighbors`: exactly the in-bounds cells sharing an
edge with `(i, j)`. -/
theorem mem_orth_neighbors {r c i j ni nj : Nat} :
    (ni, nj) ∈ orth_neighbors r c i j ↔
      ni < r ∧ nj < c ∧
        ((ni + 1 = i ∧ nj = j) ∨ (ni = i + 1 ∧ nj = j) ∨
         (ni = i ∧ nj + 1 = j) ∨ (ni = i ∧ nj = j + 1)) := by
  simp only [orth_neighbors, List.mem_filterMap, List.mem_cons,
    List.not_mem_nil, or_false]
  constructor
  · rintro ⟨d, hd, hsome⟩
    rcases hd with rfl | rfl | rfl | rfl <;>
      · rw [clipOffset_eq_some] at hsome
        omega
  · rintro ⟨h1, h2, h3⟩
    rcases h3 with ⟨ha, hb⟩ | ⟨ha, hb⟩ | ⟨ha, hb⟩ | ⟨ha, hb⟩
    · exact ⟨(-1, 0), by simp, by rw [clipOffset_eq_some]; omega⟩
    · exact ⟨(1, 0), by simp, by rw [clipOffset_eq_some]; omega⟩
    · exact ⟨(0, -1), by simp, by rw [clipOffset_eq_some]; omega⟩
    · exact ⟨(0, 1), by simp, by rw [clipOffset_eq_some]; omega⟩

/-- Every pair yielded by `all_neighbors` is inside the grid. -/
theorem all_neighbors_bounds {r c i j : Nat} {nb : Nat × Nat}
    (h : nb ∈ all_neighbors r c i j) : nb.1 < r ∧ nb.2 < c := by
  obtain ⟨ni, nj⟩ := nb
  exact ⟨(mem_all_neighbors.1 h).1, (mem_all_neighbors.1 h).2.1⟩

/-- Every pair yielded by `orth_neighbors` is inside the grid. -/
theorem orth_neighbors_bounds {r c i j : Nat} {nb : Nat × Nat}
    (h : nb ∈ orth_neighbors r c i j) : nb.1 < r ∧ nb.2 < c := by
  obtain ⟨ni, nj⟩ := nb
  exact ⟨(mem_orth_neighbors.1 h).1, (mem_orth_neighbors.1 h).2.1⟩

/-- Reflexivity of king-move adjacency across the two loop orientations:
if `(ni, nj)` is a clipped neighbour of an in-bounds `(i, j)`, then
`(i, j)` is a clipped neighbour of `(ni, nj)`. -/
theorem all_neighbors_symm {r c i j ni nj : Nat} (hi : i < r) (hj : j < c)
    (h : (ni, nj) ∈ all_neighbors r c i j) :
    (i, j) ∈ all_neighbors r c ni nj := by
  rw [mem_all_neighbors] at h ⊢
  omega

theorem exclusionSection_eq {r c : Nat} {trees : List (Nat × Nat)}
    (h : ∀ t ∈ trees, t.1 - 1 < r ∧ t.2 - 1 < c) :
    exclusionSection (pMatrix r c) trees = some (exclusionConstraints trees) := by
  unfold exclusionSection exclusionConstraints
  exact mapOption_eq_some_map (fun t ht => by
    rw [getP_pMatrix]
    simp [h t ht])

theorem rowSection_eq {r c : Nat} {rt : List Int} (h : rt.length = r) :
    rowSection (pMatrix r c) r c rt = some (rowConstraints r c rt) := by
  unfold rowSection rowConstraints
  rw [mapOption_eq_some_map (g := fun i =>
    [Formula.atMost (rowVars c i) (rt.getD i 0),
     Formula.atLeast (rowVars c i) (rt.getD i 0)])]
  · rfl
  · intro i hi
    rw [List.mem_range] at hi
    rw [mapOption_eq_some_map (g := fun j => Atom.var i j) (fun j hj => by
      rw [getP_pMatrix]
      rw [List.mem_range] at hj
      simp [hi, hj])]
    rw [getElem?_eq_some_getD 0 (by omega)]
    rfl

theorem colSection_eq {r c : Nat} {ct : List Int} (h : ct.length = c) :
    colSection (pMatrix r c) r c ct = some (colConstraints r c ct) := by
  unfold colSection colConstraints
  rw [mapOption_eq_some_map (g := fun j =>
    [Formula.atMost (colVars r j) (ct.getD j 0),
     Formula.atLeast (colVars r j) (ct.getD j 0)])]
  · rfl
  · intro j hj
    rw [List.mem_range] at hj
    rw [mapOption_eq_some_map (g := fun i => Atom.var i j) (fun i hi => by
      rw [getP_pMatrix]
      rw [List.mem_range] at hi
      simp [hi, hj])]
    rw [getElem?_eq_some_getD 0 (by omega)]
    rfl

theorem adjacencySection_eq (r c : Nat) :
    adjacencySection (pMatrix r c) r c = some (adjacencyConstraints r c) := by
  unfold adjacencySection adjacencyConstraints
  rw [mapOption_eq_some_map (g := fun i =>
    ((List.range c).map (fun j =>
      (all_neighbors r c i j).map (fun nb =>
        Formula.orNotNot (Atom.var i j) (Atom.var nb.1 nb.2)))).flatten)]
  · rfl
  · intro i hi
    rw [List.mem_range] at hi
    rw [mapOption_eq_some_map (g := fun j =>
      (all_neighbors r c i j).map (fun nb =>
        Formula.orNotNot (Atom.var i j) (Atom.var nb.1 nb.2)))]
    · rfl
    · intro j hj
      rw [List.mem_range] at hj
      rw [mapOption_eq_some_map (g := fun nb =>
        Formula.orNotNot (Atom.var i j) (Atom.var nb.1 nb.2))]
      intro nb hnb
      obtain ⟨hb1, hb2⟩ := all_neighbors_bounds hnb
      rw [getP_pMatrix]
      simp only [hi, hj, and_self, if_true]
      rw [getP_pMatrix]
      simp [hb1, hb2]

theorem tentTreeSection_eq {r c : Nat} (trees : List (Nat × Nat)) :
    tentTreeSection (pMatrix r c) r c trees =
      some (tentTreeConstraints r c trees) := by
  unfold tentTreeSection tentTreeConstraints
  rw [mapOption_eq_some_map (g := fun i =>
    (List.range c).map (fun j =>
      Formula.impliesOr (Atom.var i j)
        ((orth_neighbors r c i j).map (fun nb =>
          Atom.boolVal (decide ((nb.1 + 1, nb.2 + 1) ∈ trees))))))]
  · rfl
  · intro i hi
    rw [List.mem_range] at hi
    rw [mapOption_eq_some_map (g := fun j =>
      Formula.impliesOr (Atom.var i j)
        ((orth_neighbors r c i j).map (fun nb =>
          Atom.boolVal (decide ((nb.1 + 1, nb.2 + 1) ∈ trees)))))]
    intro j hj
    rw [List.mem_range] at hj
    rw [getP_pMatrix]
    simp [hi, hj]

theorem treeTentSection_eq {r c : Nat} (trees : List (Nat × Nat)) :
    treeTentSection (pMatrix r c) r c trees =
      some (treeTentConstraints r c trees) := by
  unfold treeTentSection treeTentConstraints
  rw [mapOption_eq_some_map (g := fun t =>
    if ((orth_neighbors r c (t.1 - 1) (t.2 - 1)).map
          (fun nb => Atom.var nb.1 nb.2)).isEmpty then
      ([] : List Formula)
    else
      [Formula.orAtoms ((orth_neighbors r c (t.1 - 1) (t.2 - 1)).map
        (fun nb => Atom.var nb.1 nb.2))])]
  · rfl
  · intro t ht
    rw [mapOption_eq_some_map (g := fun nb => Atom.var nb.1 nb.2) (fun nb hnb => by
      obtain ⟨hb1, hb2⟩ := orth_neighbors_bounds hnb
      rw [getP_pMatrix]
      simp [hb1, hb2])]
    cases hne : ((orth_neighbors r c (t.1 - 1) (t.2 - 1)).map
        (fun nb => Atom.var nb.1 nb.2)).isEmpty <;> simp [hne]

/-- On an encodable grid, `build_solver` raises no error and produces the
closed-form constraint list. -/
theorem build_solver_eq {g : Grid} (h : EncoderReady g) :
    build_solver g = some (constraintsOf g) := by
  obtain ⟨h1, h2, h3⟩ := h
  simp only [build_solver, exclusionSection_eq h3, rowSection_eq h1,
    colSection_eq h2, adjacencySection_eq, tentTreeSection_eq,
    treeTentSection_eq, constraintsOf]

theorem encoderReady_of_wellFormed {g : Grid} (h : WellFormed g) :
    EncoderReady g := by
  obtain ⟨hr, hc, h1, h2, h3⟩ := h
  refine ⟨h1, h2, fun t ht => ?_⟩
  obtain ⟨a1, a2, a3, a4⟩ := h3 t ht
  omega

theorem countTrue_rowVars (a : Assignment) (c i : Nat) :
    countTrue a (rowVars c i) = (List.range c).countP (fun j => a i j) := by
  unfold countTrue rowVars
  rw [List.countP_map]
  rfl

theorem countTrue_colVars (a : Assignment) (r j : Nat) :
    countTrue a (colVars r j) = (List.range r).countP (fun i => a i j) := by
  unfold countTrue colVars
  rw [List.countP_map]
  rfl

theorem row_card_mem {g : Grid} {i : Nat} (hi : i < g.nrows) :
    Formula.atMost (rowVars g.ncols i) (g.row_targets.getD i 0) ∈ constraintsOf g ∧
    Formula.atLeast (rowVars g.ncols i) (g.row_targets.getD i 0) ∈ constraintsOf g := by
  have hmem : ∀ f ∈ [Formula.atMost (rowVars g.ncols i) (g.row_targets.getD i 0),
      Formula.atLeast (rowVars g.ncols i) (g.row_targets.getD i 0)],
      f ∈ constraintsOf g := by
    intro f hf
    unfold constraintsOf
    refine List.mem_append_left _ (List.mem_append_left _ (List.mem_append_left _
      (List.mem_append_left _ (List.mem_append_right _ ?_))))
    unfold rowConstraints
    rw [List.mem_flatten]
    exact ⟨_, List.mem_map_of_mem _ (List.mem_range.2 hi), hf⟩
  exact ⟨hmem _ (by simp), hmem _ (by simp)⟩

theorem col_card_mem {g : Grid} {j : Nat} (hj : j < g.ncols) :
    Formula.atMost (colVars g.nrows j) (g.col_targets.getD j 0) ∈ constraintsOf g ∧
    Formula.atLeast (colVars g.nrows j) (g.col_targets.getD j 0) ∈ constraintsOf g := by
  have hmem : ∀ f ∈ [Formula.atMost (colVars g.nrows j) (g.col_targets.getD j 0),
      Formula.atLeast (colVars g.nrows j) (g.col_targets.getD j 0)],
      f ∈ constraintsOf g := by
    intro f hf
    unfold constraintsOf
    refine List.mem_append_left _ (List.mem_append_left _ (List.mem_append_left _
      (List.mem_append_right _ ?_)))
    unfold colConstraints
    rw [List.mem_flatten]
    exact ⟨_, List.mem_map_of_mem _ (List.mem_range.2 hj), hf⟩
  exact ⟨hmem _ (by simp), hmem _ (by simp)⟩

theorem adjacency_mem {g : Grid} {i j : Nat} (hi : i < g.nrows) (hj : j < g.ncols)
    {nb : Nat × Nat} (hnb : nb ∈ all_neighbors g.nrows g.ncols i j) :
    Formula.orNotNot (Atom.var i j) (Atom.var nb.1 nb.2) ∈ constraintsOf g := by
  unfold constraintsOf
  refine List.mem_append_left _ (List.mem_append_left _
    (List.mem_append_right _ ?_))
  unfold adjacencyConstraints
  rw [List.mem_flatten]
  refine ⟨_, List.mem_map_of_mem _ (List.mem_range.2 hi), ?_⟩
  rw [List.mem_flatten]
  refine ⟨_, List.mem_map_of_mem _ (List.mem_range.2 hj), ?_⟩
  exact List.mem_map_of_mem _ hnb

theorem tentTree_mem {g : Grid} {i j : Nat} (hi : i < g.nrows) (hj : j < g.ncols) :
    Formula.impliesOr (Atom.var i j)
      ((orth_neighbors g.nrows g.ncols i j).map (fun nb =>
        Atom.boolVal (decide ((nb.1 + 1, nb.2 + 1) ∈ g.tree_positions)))) ∈
      constraintsOf g := by
  unfold constraintsOf
  refine List.mem_append_left _ (List.mem_append_right _ ?_)
  unfold tentTreeConstraints
  rw [List.mem_flatten]
  exact ⟨_, List.mem_map_of_mem _ (List.mem_range.2 hi),
    List.mem_map_of_mem _ (List.mem_range.2 hj)⟩

/-- C1: On every well-formed grid the encoder asserts, for each row
`i`, both an at-most and an at-least cardinality constraint of the row's
variables against `row_targets[i]`, and likewise for each column against
`col_targets[j]`; consequently every model of the constraint set makes the
number of true placement variables in row `i` exactly `row_targets[i]` and
in column `j` exactly `col_targets[j]`. -/
theorem C1_exact_row_col_counts (g : Grid) (hwf : WellFormed g)
    (cs : List Formula) (hcs : build_solver g = some cs)
    (a : Assignment) (ha : satisfies a cs) :
    (∀ i, i < g.nrows →
      Formula.atMost (rowVars g.ncols i) (g.row_targets.getD i 0) ∈ cs ∧
      Formula.atLeast (rowVars g.ncols i) (g.row_targets.getD i 0) ∈ cs ∧
      (((List.range g.ncols).countP (fun j => a i j) : Int) =
        g.row_targets.getD i 0)) ∧
    (∀ j, j < g.ncols →
      Formula.atMost (colVars g.nrows j) (g.col_targets.getD j 0) ∈ cs ∧
      Formula.atLeast (colVars g.nrows j) (g.col_targets.getD j 0) ∈ cs ∧
      (((List.range g.nrows).countP (fun i => a i j) : Int) =
        g.col_targets.getD j 0)) := by
  rw [build_solver_eq (encoderReady_of_wellFormed hwf)] at hcs
  cases Option.some.inj hcs
  constructor
  · intro i hi
    obtain ⟨hm, hl⟩ := row_card_mem (g := g) hi
    refine ⟨hm, hl, ?_⟩
    have h1 := ha _ hm
    have h2 := ha _ hl
    simp only [evalFormula, decide_eq_true_eq] at h1 h2
    rw [countTrue_rowVars] at h1 h2
    omega
  · intro j hj
    obtain ⟨hm, hl⟩ := col_card_mem (g := g) hj
    refine ⟨hm, hl, ?_⟩
    have h1 := ha _ hm
    have h2 := ha _ hl
    simp only [evalFormula, decide_eq_true_eq] at h1 h2
    rw [countTrue_colVars] at h1 h2
    omega

/-- Witness for C1: on `demoGrid` and its model, row 1 holds exactly its
target of one true variable. -/
theorem C1_exact_row_col_counts_witness :
    ((List.range demoGrid.ncols).countP (fun j => demoModel 0 j) : Int) =
      demoGrid.row_targets.getD 0 0 :=
  ((C1_exact_row_col_counts demoGrid (by decide) demoCs (by rfl)
    demoModel (by decide)).1 0 (by decide)).2.2

/-- C4: On every well-formed grid: membership in the code's neighbour
generator coincides with in-bounds king-move adjacency; for every cell and
every such neighbour the encoder asserts the mutual-exclusion clause in
both orientations; and consequently no model makes two king-adjacent
placement variables true. -/
theorem C4_no_adjacent_tents (g : Grid) (hwf : WellFormed g)
    (cs : List Formula) (hcs : build_solver g = some cs) :
    (∀ i j ni nj : Nat,
      (ni, nj) ∈ all_neighbors g.nrows g.ncols i j ↔
        ni < g.nrows ∧ nj < g.ncols ∧ ¬(ni = i ∧ nj = j) ∧
          (ni ≤ i + 1 ∧ i ≤ ni + 1) ∧ (nj ≤ j + 1 ∧ j ≤ nj + 1)) ∧
    (∀ i j, i < g.nrows → j < g.ncols →
      ∀ nb ∈ all_neighbors g.nrows g.ncols i j,
        Formula.orNotNot (Atom.var i j) (Atom.var nb.1 nb.2) ∈ cs ∧
        Formula.orNotNot (Atom.var nb.1 nb.2) (Atom.var i j) ∈ cs) ∧
    (∀ a, satisfies a cs → ∀ i j, i < g.nrows → j < g.ncols →
      ∀ nb ∈ all_neighbors g.nrows g.ncols i j,
        ¬(a i j = true ∧ a nb.1 nb.2 = true)) := by
  rw [build_solver_eq (encoderReady_of_wellFormed hwf)] at hcs
  cases Option.some.inj hcs
  refine ⟨fun i j ni nj => mem_all_neighbors, ?_, ?_⟩
  · intro i j hi hj nb hnb
    obtain ⟨ni, nj⟩ := nb
    obtain ⟨hb1, hb2⟩ := all_neighbors_bounds hnb
    exact ⟨adjacency_mem hi hj hnb,
      adjacency_mem hb1 hb2 (all_neighbors_symm hi hj hnb)⟩
  · intro a ha i j hi hj nb hnb hboth
    have h1 := ha _ (adjacency_mem hi hj hnb)
    simp only [evalFormula, evalAtom, hboth.1, hboth.2] at h1
    simp at h1

/-- Witness for C4: in `demoGrid`'s model the two (king-adjacent) cells
are not both true. -/
theorem C4_no_adjacent_tents_witness :
    ¬(demoModel 0 0 = true ∧ demoModel 0 1 = true) :=
  (C4_no_adjacent_tents demoGrid (by decide) demoCs (by rfl)).2.2 demoModel
    (by decide) 0 0 (by decide) (by decide) (0, 1) (by decide)

/-- C5: On every well-formed grid the encoder asserts, for every cell,
the implication from its placement variable to the disjunction of constant
truth values, one constant per in-bounds orthogonal neighbour, the
constant being true iff that neighbour's 1-based coordinate is a tree;
consequently any cell with no orthogonally adjacent tree has its placement
variable false in every model. -/
theorem C5_tent_requires_adjacent_tree (g : Grid) (hwf : WellFormed g)
    (cs : List Formula) (hcs : build_solver g = some cs) :
    (∀ i j, i < g.nrows → j < g.ncols →
      Formula.impliesOr (Atom.var i j)
        ((orth_neighbors g.nrows g.ncols i j).map (fun nb =>
          Atom.boolVal (decide ((nb.1 + 1, nb.2 + 1) ∈ g.tree_positions)))) ∈ cs) ∧
    (∀ a, satisfies a cs → ∀ i j, i < g.nrows → j < g.ncols →
      (∀ nb ∈ orth_neighbors g.nrows g.ncols i j,
        (nb.1 + 1, nb.2 + 1) ∉ g.tree_positions) →
      a i j = false) := by
  rw [build_solver_eq (encoderReady_of_wellFormed hwf)] at hcs
  cases Option.some.inj hcs
  refine ⟨fun i j hi hj => tentTree_mem hi hj, ?_⟩
  intro a ha i j hi hj hnotree
  have h1 := ha _ (tentTree_mem (g := g) hi hj)
  simp only [evalFormula, Bool.or_eq_true, Bool.not_eq_true',
    List.any_eq_true, List.mem_map] at h1
  rcases h1 with h1 | ⟨d, ⟨nb, hnb, rfl⟩, hd⟩
  · exact h1
  · simp only [evalAtom, decide_eq_true_eq] at hd
    exact absurd hd (hnotree nb hnb)

/-- Witness for C5: cell (1,1) of `demoGrid` is the tree itself, has no
orthogonally adjacent tree, and is false in the model. -/
theorem C5_tent_requires_adjacent_tree_witness : demoModel 0 0 = false :=
  (C5_tent_requires_adjacent_tree demoGrid (by decide) demoCs (by rfl)).2
    demoModel (by decide) 0 0 (by decide) (by decide) (by decide)

/-- C6: On every well-formed grid the encoder runs to completion: no
list access is out of range, so `build_solver` returns a constraint set
and raises nothing during encoding. -/
theorem C6_encoder_never_fails (g : Grid) (hwf : WellFormed g) :
    (build_solver g).isSome = true := by
  rw [build_solver_eq (encoderReady_of_wellFormed hwf)]
  rfl

/-- Witness for C6 on the demo grid. -/
theorem C6_encoder_never_fails_witness : (build_solver demoGrid).isSome = true :=
  C6_encoder_never_fails demoGrid (by decide)

/-- C8: Re-encoding the same grid yields structurally equivalent
constraint sets: the declared variable matrix always holds exactly
`nrows × ncols` booleans, and two runs of `build_solver` on the same grid
produce constraint lists of the same length. -/
theorem C8_reencoding_structurally_equal (g : Grid) (cs1 cs2 : List Formula)
    (h1 : build_solver g = some cs1) (h2 : build_solver g = some cs2) :
    (pMatrix g.nrows g.ncols).flatten.length = g.nrows * g.ncols ∧
    cs1.length = cs2.length := by
  constructor
  · unfold pMatrix
    rw [List.length_flatten, List.map_map]
    have hc : (List.length ∘ fun i => (List.range g.ncols).map
        (fun j => Atom.var i j)) = fun _ => g.ncols := by
      funext i
      simp
    rw [hc, List.map_const', List.sum_replicate, List.length_range,
      smul_eq_mul]
  · rw [h1] at h2
    cases Option.some.inj h2
    rfl

/-- Witness for C8 on the demo grid. -/
theorem C8_reencoding_structurally_equal_witness :
    (pMatrix demoGrid.nrows demoGrid.ncols).flatten.length =
      demoGrid.nrows * demoGrid.ncols ∧ demoCs.length = demoCs.length :=
  C8_reencoding_structurally_equal demoGrid demoCs demoCs (by rfl) (by rfl)

/-- C2 counterexample: On the 1×1 grid whose single cell is a tree
(zero targets), `build_solver` runs to completion — no degenerate-
constraint condition is surfaced — and the constraint set it produces is
satisfied by the all-false assignment, so the solver reports satisfiable,
not unsatisfiable. -/
theorem C2_counterexample_silent_sat :
    (build_solver oneCellTreeGrid).isSome = true ∧
    satisfies allFalse ((build_solver oneCellTreeGrid).getD []) := by
  decide

/-- C2 amended: When an obstacle has zero in-grid orthogonal
neighbours (forcing a 1×1 grid), the encoder raises no error and the
`if neigh_tents:` guard silently omits every obstacle-to-placement
pairing constraint: the emitted set contains no `Or(vars)` formula at
all, so nothing marks the degenerate obstacle. -/
theorem C2_amended_silent_omission (g : Grid) (hwf : WellFormed g)
    (t : Nat × Nat) (ht : t ∈ g.tree_positions)
    (hdeg : orth_neighbors g.nrows g.ncols (t.1 - 1) (t.2 - 1) = []) :
    (build_solver g).isSome = true ∧
    ∀ f ∈ (build_solver g).getD [], f.isOrAtoms = false := by
  have hready := encoderReady_of_wellFormed hwf
  rw [build_solver_eq hready]
  refine ⟨rfl, ?_⟩
  rw [Option.getD_some]
  have hti : t.1 - 1 < g.nrows := (hready.2.2 t ht).1
  have htj : t.2 - 1 < g.ncols := (hready.2.2 t ht).2
  have hnone : ∀ ni nj : Nat,
      (ni, nj) ∉ orth_neighbors g.nrows g.ncols (t.1 - 1) (t.2 - 1) := by
    intro ni nj h
    rw [hdeg] at h
    exact absurd h (List.not_mem_nil _)
  have hdim : g.nrows = 1 ∧ g.ncols = 1 := by
    rcases Nat.lt_or_ge g.nrows 2 with hr | hr
    · rcases Nat.lt_or_ge g.ncols 2 with hc | hc
      · omega
      · rcases Nat.lt_or_ge (t.2 - 1 + 1) g.ncols with h2 | h2
        · exact absurd (mem_orth_neighbors.2 (by omega))
            (hnone (t.1 - 1) (t.2 - 1 + 1))
        · exact absurd (mem_orth_neighbors.2 (by omega))
            (hnone (t.1 - 1) (t.2 - 1 - 1))
    · rcases Nat.lt_or_ge (t.1 - 1 + 1) g.nrows with h2 | h2
      · exact absurd (mem_orth_neighbors.2 (by omega))
          (hnone (t.1 - 1 + 1) (t.2 - 1))
      · exact absurd (mem_orth_neighbors.2 (by omega))
          (hnone (t.1 - 1 - 1) (t.2 - 1))
  obtain ⟨hd1, hd2⟩ := hdim
  intro f hf
  unfold constraintsOf at hf
  simp only [List.mem_append] at hf
  rcases hf with ((((hf | hf) | hf) | hf) | hf) | hf
  · obtain ⟨t2, _, rfl⟩ := List.mem_map.1 hf
    rfl
  · unfold rowConstraints at hf
    rw [List.mem_flatten] at hf
    obtain ⟨l, hl, hfl⟩ := hf
    obtain ⟨i, _, rfl⟩ := List.mem_map.1 hl
    simp only [List.mem_cons, List.not_mem_nil, or_false] at hfl
    rcases hfl with rfl | rfl <;> rfl
  · unfold colConstraints at hf
    rw [List.mem_flatten] at hf
    obtain ⟨l, hl, hfl⟩ := hf
    obtain ⟨j, _, rfl⟩ := List.mem_map.1 hl
    simp only [List.mem_cons, List.not_mem_nil, or_false] at hfl
    rcases hfl with rfl | rfl <;> rfl
  · unfold adjacencyConstraints at hf
    rw [List.mem_flatten] at hf
    obtain ⟨l, hl, hfl⟩ := hf
    obtain ⟨i, _, rfl⟩ := List.mem_map.1 hl
    rw [List.mem_flatten] at hfl
    obtain ⟨l2, hl2, hfl2⟩ := hfl
    obtain ⟨j, _, rfl⟩ := List.mem_map.1 hl2
    obtain ⟨nb, _, rfl⟩ := List.mem_map.1 hfl2
    rfl
  · unfold tentTreeConstraints at hf
    rw [List.mem_flatten] at hf
    obtain ⟨l, hl, hfl⟩ := hf
    obtain ⟨i, _, rfl⟩ := List.mem_map.1 hl
    obtain ⟨j, _, rfl⟩ := List.mem_map.1 hfl
    rfl
  · unfold treeTentConstraints at hf
    rw [List.mem_flatten] at hf
    obtain ⟨l, hl, hfl⟩ := hf
    obtain ⟨t2, ht2, rfl⟩ := List.mem_map.1 hl
    have hb2 := hwf.2.2.2.2 t2 ht2
    have he1 : t2.1 - 1 = 0 := by omega
    have he2 : t2.2 - 1 = 0 := by omega
    rw [he1, he2, hd1, hd2] at hfl
    have hor : orth_neighbors 1 1 0 0 = [] := rfl
    rw [hor] at hfl
    simp at hfl

/-- Witness for the amended C2 at the concrete degenerate grid. -/
theorem C2_amended_silent_omission_witness :
    (build_solver oneCellTreeGrid).isSome = true ∧
    ∀ f ∈ (build_solver oneCellTreeGrid).getD [], f.isOrAtoms = false :=
  C2_amended_silent_omission oneCellTreeGrid (by decide) (1, 1) (by decide)
    (by decide)

/-- C7: An `unsat` verdict is reported as the "no solution" outcome
(a printed line, not an exception), and an `unknown` verdict never
produces the same output as `unsat`: the status line names the verdict. -/
theorem C7_unsat_vs_unknown_reporting (timeText : String)
    (boardLines : List String) :
    solveOutput Z3Result.unsat timeText boardLines =
      [("Z3 status: unsat, time: " ++ timeText ++ " sec"), noSolutionLine] ∧
    solveOutput Z3Result.unknown timeText boardLines ≠
      solveOutput Z3Result.unsat timeText boardLines := by
  constructor
  · rfl
  · intro h
    have hh : ("Z3 status: " ++ resultText Z3Result.unknown ++ ", time: " ++
        timeText ++ " sec") = ("Z3 status: " ++ resultText Z3Result.unsat ++
        ", time: " ++ timeText ++ " sec") := by
      injection h
    have hl := congrArg String.toList hh
    simp only [String.toList, String.data_append] at hl
    have hl2 := List.append_cancel_right (List.append_cancel_right hl)
    have hl3 := List.append_cancel_right hl2
    exact absurd hl3 (by decide)

/-- Witness for C7 at a concrete time string and board rendering. -/
theorem C7_unsat_vs_unknown_reporting_witness :
    solveOutput Z3Result.unsat emptyTok [] =
      [("Z3 status: unsat, time: " ++ emptyTok ++ " sec"), noSolutionLine] ∧
    solveOutput Z3Result.unknown emptyTok [] ≠
      solveOutput Z3Result.unsat emptyTok [] :=
  C7_unsat_vs_unknown_reporting emptyTok []

theorem mapExcept_ok_length {α β : Type} {ε : Type} {f : α → Except ε β} :
    ∀ {xs : List α} {ys : List β}, mapExcept f xs = Except.ok ys →
      ys.length = xs.length
  | [], ys, h => by
    simp only [mapExcept, Except.ok.injEq] at h
    subst h
    rfl
  | x :: xs, ys, h => by
    revert h
    cases hx : f x with
    | error e => intro h; simp [mapExcept, hx] at h
    | ok y =>
      cases hxs : mapExcept f xs with
      | error e => intro h; simp [mapExcept, hx, hxs] at h
      | ok zs =>
        intro h
        simp only [mapExcept, hx, hxs, Except.ok.injEq] at h
        subst h
        simp [mapExcept_ok_length hxs]

theorem intTok_ok_iff {s : String} :
    exceptOk (intTok s) = true ↔ (pyInt s).isSome = true := by
  unfold intTok
  cases hp : pyInt s <;> simp [exceptOk]

theorem intTok_eq_ok {s : String} (h : (pyInt s).isSome = true) :
    intTok s = Except.ok ((pyInt s).getD 0) := by
  unfold intTok
  cases hp : pyInt s with
  | none => rw [hp] at h; simp at h
  | some n => rfl

theorem intTok_error_form {s : String} {e : PyError}
    (h : intTok s = Except.error e) : e = PyError.valueError s := by
  unfold intTok at h
  cases hp : pyInt s with
  | none => rw [hp] at h; injection h with h; exact h.symm
  | some n => rw [hp] at h; exact absurd h (by simp)

theorem parseRow_eq_ok {ncols : Nat} {row : List String}
    (hlen : ncols + 1 ≤ row.length)
    (hint : (pyInt (row.headD emptyTok)).isSome = true) :
    parseRow ncols row =
      Except.ok ((pyInt (row.headD emptyTok)).getD 0, (row.drop 1).take ncols) := by
  unfold parseRow
  rw [if_neg (by omega)]
  cases hp : pyInt (row.headD emptyTok) with
  | none => rw [hp] at hint; simp at hint
  | some t => rfl

theorem parseRow_ok_iff {ncols : Nat} {row : List String} :
    exceptOk (parseRow ncols row) = true ↔
      (ncols + 1 ≤ row.length ∧
        (pyInt (row.headD emptyTok)).isSome = true) := by
  unfold parseRow
  split
  · rename_i hlt
    simp only [exceptOk, Bool.false_eq_true, false_iff]
    intro hcon
    omega
  · rename_i hlt
    cases hp : pyInt (row.headD emptyTok) with
    | none => simp [exceptOk]
    | some t =>
      simp only [exceptOk, Option.isSome_some, and_true, true_iff]
      omega

theorem parseRow_ok_inv {ncols : Nat} {row : List String} {p : Int × List String}
    (h : parseRow ncols row = Except.ok p) :
    ncols + 1 ≤ row.length ∧ pyInt (row.headD emptyTok) = some p.1 ∧
      p.2 = (row.drop 1).take ncols := by
  unfold parseRow at h
  split at h
  · exact absurd h (by simp)
  · rename_i hlt
    cases hp : pyInt (row.headD emptyTok) with
    | none => rw [hp] at h; exact absurd h (by simp)
    | some t =>
      rw [hp] at h
      injection h with h
      subst h
      exact ⟨by omega, rfl, rfl⟩

theorem parseRow_error_form {ncols : Nat} {row : List String} {e : PyError}
    (h : parseRow ncols row = Except.error e) :
    e = PyError.valueError badLineTok ∨
      e = PyError.valueError (row.headD emptyTok) := by
  unfold parseRow at h
  split at h
  · injection h with h
    exact Or.inl h.symm
  · cases hp : pyInt (row.headD emptyTok) with
    | none => rw [hp] at h; injection h with h; exact Or.inr h.symm
    | some t => rw [hp] at h; exact absurd h (by simp)

/-- Any coordinate collected by the tree comprehension lies in
`[1,rows] × [1,cols]`. -/
theorem tree_positions_of_bounds {r c : Nat} {board : List (List String)}
    {t : Nat × Nat} (h : t ∈ tree_positions_of r c board) :
    1 ≤ t.1 ∧ t.1 ≤ r ∧ 1 ≤ t.2 ∧ t.2 ≤ c := by
  unfold tree_positions_of at h
  rw [List.mem_flatten] at h
  obtain ⟨l, hl, hml⟩ := h
  obtain ⟨i, hi, rfl⟩ := List.mem_map.1 hl
  rw [List.mem_range] at hi
  obtain ⟨j, hj, hsome⟩ := List.mem_filterMap.1 hml
  rw [List.mem_range] at hj
  split at hsome
  · injection hsome with hsome
    subst hsome
    refine ⟨by omega, by omega, by omega, by omega⟩
  · exact absurd hsome (by simp)

/-- On fully well-formed token input the loader succeeds and returns
exactly this grid: targets from `int`, board rows the `cols`-token slice
after the leading target (extra tokens dropped), trees collected from the
board. -/
theorem parseTokens_eq_ok {header : List String} {rest : List (List String)}
    (hh : ∀ s ∈ header, (pyInt s).isSome = true)
    (hr : ∀ row ∈ rest, header.length + 1 ≤ row.length ∧
      (pyInt (row.headD emptyTok)).isSome = true) :
    parseTokens (header :: rest) =
      Except.ok
        { nrows := rest.length
          ncols := header.length
          row_targets := rest.map (fun row => (pyInt (row.headD emptyTok)).getD 0)
          col_targets := header.map (fun s => (pyInt s).getD 0)
          board := rest.map (fun row => (row.drop 1).take header.length)
          tree_positions := tree_positions_of rest.length header.length
            (rest.map (fun row => (row.drop 1).take header.length)) } := by
  have hct : mapExcept intTok header =
      Except.ok (header.map (fun s => (pyInt s).getD 0)) :=
    mapExcept_eq_ok_map (fun s hs => intTok_eq_ok (hh s hs))
  have hlen : (header.map (fun s => (pyInt s).getD 0)).length = header.length :=
    List.length_map _ _
  have hpr : mapExcept
      (parseRow (header.map (fun s => (pyInt s).getD 0)).length) rest =
      Except.ok (rest.map (fun row =>
        ((pyInt (row.headD emptyTok)).getD 0,
          (row.drop 1).take header.length))) := by
    rw [hlen]
    exact mapExcept_eq_ok_map (fun row hrow =>
      parseRow_eq_ok (hr row hrow).1 (hr row hrow).2)
  simp only [parseTokens, hct, hpr]
  simp [Function.comp_def, Grid.mk.injEq]

/-- Structural facts about every grid the loader returns: target-list
lengths match the dimensions, board rows have exactly `ncols` cells, and
tree coordinates lie in `[1,rows] × [1,cols]`. -/
theorem parseTokens_ok_inv {tokens : List (List String)} {g : Grid}
    (h : parseTokens tokens = Except.ok g) :
    g.row_targets.length = g.nrows ∧ g.col_targets.length = g.ncols ∧
    (∀ row ∈ g.board, row.length = g.ncols) ∧
    (∀ t ∈ g.tree_positions,
      1 ≤ t.1 ∧ t.1 ≤ g.nrows ∧ 1 ≤ t.2 ∧ t.2 ≤ g.ncols) := by
  cases tokens with
  | nil => exact absurd h (by simp [parseTokens])
  | cons header rest =>
    simp only [parseTokens] at h
    cases hct : mapExcept intTok header with
    | error e => simp only [hct] at h; exact absurd h (by simp)
    | ok cts =>
      simp only [hct] at h
      cases hpr : mapExcept (parseRow cts.length) rest with
      | error e => simp only [hpr] at h; exact absurd h (by simp)
      | ok parsed =>
        simp only [hpr] at h
        injection h with h
        subst h
        refine ⟨by simp, rfl, ?_, fun t ht => tree_positions_of_bounds ht⟩
        intro row hrow
        simp only [List.mem_map] at hrow
        obtain ⟨pr, hpr2, rfl⟩ := hrow
        obtain ⟨r0, hr0, hok⟩ := mapExcept_ok_mem hpr pr hpr2
        obtain ⟨hlen, _, hb⟩ := parseRow_ok_inv hok
        rw [hb]
        simp only [List.length_take, List.length_drop]
        omega

/-- On nonempty tokenised input every loader failure is a `ValueError`
(the Python `IndexError` can only arise from an empty file). -/
theorem parseTokens_error_form {header : List String}
    {rest : List (List String)} {e : PyError}
    (h : parseTokens (header :: rest) = Except.error e) :
    e ≠ PyError.indexError := by
  simp only [parseTokens] at h
  cases hct : mapExcept intTok header with
  | error e2 =>
    simp only [hct] at h
    injection h with h
    subst h
    obtain ⟨s, _, hs⟩ := mapExcept_error_mem hct
    rw [intTok_error_form hs]
    simp
  | ok cts =>
    simp only [hct] at h
    cases hpr : mapExcept (parseRow cts.length) rest with
    | error e2 =>
      simp only [hpr] at h
      injection h with h
      subst h
      obtain ⟨row, _, hrow⟩ := mapExcept_error_mem hpr
      rcases parseRow_error_form hrow with h2 | h2 <;> rw [h2] <;> simp
    | ok parsed =>
      simp only [hpr] at h
      exact absurd h (by simp)

/-- Success criterion of the embedded loader on nonempty tokenised input,
characterised through `pyInt`. Because `pyInt` under-approximates `int()`,
for the Python program this iff yields sufficiency in general and
exactness on tokens free of non-ASCII digits. -/
theorem parseTokens_ok_iff {header : List String} {rest : List (List String)} :
    exceptOk (parseTokens (header :: rest)) = true ↔
      ((∀ s ∈ header, (pyInt s).isSome = true) ∧
        ∀ row ∈ rest, header.length + 1 ≤ row.length ∧
          (pyInt (row.headD emptyTok)).isSome = true) := by
  constructor
  · intro h
    simp only [parseTokens] at h
    cases hct : mapExcept intTok header with
    | error e => simp only [hct] at h; simp [exceptOk] at h
    | ok cts =>
      simp only [hct] at h
      cases hpr : mapExcept (parseRow cts.length) rest with
      | error e => simp only [hpr] at h; simp [exceptOk] at h
      | ok parsed =>
        have hcl : cts.length = header.length := mapExcept_ok_length hct
        constructor
        · intro s hs
          have h1 : exceptOk (mapExcept intTok header) = true := by
            rw [hct]
            rfl
          exact intTok_ok_iff.1 ((mapExcept_ok_iff.1 h1) s hs)
        · intro row hrow
          have h1 : exceptOk (mapExcept (parseRow cts.length) rest) = true := by
            rw [hpr]
            rfl
          have h3 := parseRow_ok_iff.1 ((mapExcept_ok_iff.1 h1) row hrow)
          rw [hcl] at h3
          exact h3
  · rintro ⟨hh, hr⟩
    rw [parseTokens_eq_ok hh hr]
    rfl

/-- C3 counterexample: A data row with 3 tokens where `cols + 1 = 2`
(more than `cols+1`) is not rejected: the loader succeeds, silently
truncating the extra token — contradicting the claim that any token count
other than `cols+1` fails with `MalformedInputError`. -/
theorem C3_counterexample_extra_tokens_accepted :
    parseTokens [["1"], ["0", ".", "X"]] = Except.ok extraTokenGrid := by
  decide

/-- C3 amended: the loader never rejects a data row for having too many
tokens — success requires only that every data row have at least `cols+1`
tokens (conjunct 1), and valid (optionally signed, underscore-grouped)
integer tokens together with that length bound guarantee success with the
extras ignored (conjunct 2); a negative target such as `-1` is accepted,
not rejected (conjunct 4); and on nonempty input every loader failure is
a `ValueError`, never an unrelated error (conjunct 3). The numeric-token
hypothesis of conjunct 2 is only a sufficient condition: `pyInt`
under-approximates `int()`, so no exact rejection characterisation is
claimed for numeric tokens. -/
theorem C3_amended_loader_failure_condition (header : List String)
    (rest : List (List String)) :
    (exceptOk (parseTokens (header :: rest)) = true →
      ∀ row ∈ rest, header.length + 1 ≤ row.length) ∧
    ((∀ s ∈ header, (pyInt s).isSome = true) →
      (∀ row ∈ rest, header.length + 1 ≤ row.length ∧
        (pyInt (row.headD emptyTok)).isSome = true) →
      exceptOk (parseTokens (header :: rest)) = true) ∧
    (∀ e, parseTokens (header :: rest) = Except.error e →
      e ≠ PyError.indexError) ∧
    parseTokens [["0", "0"], ["-1", ".", "."]] = Except.ok negTargetGrid := by
  refine ⟨?_, ?_, fun e he => parseTokens_error_form he, by decide⟩
  · intro h row hrow
    exact ((parseTokens_ok_iff.1 h).2 row hrow).1
  · intro hh hr
    exact parseTokens_ok_iff.2 ⟨hh, hr⟩

/-- Witness for the amended C3: a two-line token input with a valid
header, a sufficient row length and a valid leading integer parses. -/
theorem C3_amended_loader_failure_condition_witness :
    exceptOk (parseTokens [["1"], ["0", "."]]) = true :=
  (C3_amended_loader_failure_condition (["1"]) ([["0", "."]])).2.1
    (by decide) (by decide)

/-- C9: A data row may have more than `cols+1` tokens: whenever every
data row has at least `cols+1` tokens (and the numeric tokens parse), the
loader succeeds, taking the first token of each row as the row target and
the next `cols` tokens as cell markers while silently ignoring the extra
trailing tokens. -/
theorem C9_extra_tokens_silently_ignored (header : List String)
    (rest : List (List String))
    (hh : ∀ s ∈ header, (pyInt s).isSome = true)
    (hr : ∀ row ∈ rest, header.length + 1 ≤ row.length ∧
      (pyInt (row.headD emptyTok)).isSome = true) :
    parseTokens (header :: rest) =
      Except.ok
        { nrows := rest.length
          ncols := header.length
          row_targets := rest.map (fun row => (pyInt (row.headD emptyTok)).getD 0)
          col_targets := header.map (fun s => (pyInt s).getD 0)
          board := rest.map (fun row => (row.drop 1).take header.length)
          tree_positions := tree_positions_of rest.length header.length
            (rest.map (fun row => (row.drop 1).take header.length)) } :=
  parseTokens_eq_ok hh hr

/-- Witness for C9: a data row with two extra tokens parses, with the
extras dropped from the board. -/
theorem C9_extra_tokens_silently_ignored_witness :
    parseTokens [["1"], ["2", ".", "Y", "Z"]] =
      Except.ok
        { nrows := 1
          ncols := 1
          row_targets := [2]
          col_targets := [1]
          board := [["."]]
          tree_positions := tree_positions_of 1 1 [["."]] } := by
  have h := C9_extra_tokens_silently_ignored (["1"]) ([["2", ".", "Y", "Z"]])
    (by decide) (by decide)
  exact h

/-- C10: Every matrix access of the encoder on a loader-produced grid
is in bounds: the loader returns tree coordinates inside
`[1,rows] × [1,cols]`, board rows of length exactly `cols` and target
lists matching the dimensions; both neighbour generators only yield
coordinates with `ni < nrows` and `nj < ncols`; and on every
loader-produced grid (via tokens, or via `parse_puzzle` on raw text)
`build_solver` performs only in-range accesses, returning a constraint
set. -/
theorem C10_all_accesses_in_bounds :
    (∀ tokens g, parseTokens tokens = Except.ok g →
      (∀ t ∈ g.tree_positions,
        1 ≤ t.1 ∧ t.1 ≤ g.nrows ∧ 1 ≤ t.2 ∧ t.2 ≤ g.ncols) ∧
      (∀ row ∈ g.board, row.length = g.ncols) ∧
      g.row_targets.length = g.nrows ∧ g.col_targets.length = g.ncols) ∧
    (∀ r c i j : Nat, ∀ nb ∈ all_neighbors r c i j, nb.1 < r ∧ nb.2 < c) ∧
    (∀ r c i j : Nat, ∀ nb ∈ orth_neighbors r c i j, nb.1 < r ∧ nb.2 < c) ∧
    (∀ tokens g, parseTokens tokens = Except.ok g →
      (build_solver g).isSome = true) ∧
    (∀ text g, parse_puzzle text = Except.ok g →
      (build_solver g).isSome = true) := by
  have hbuild : ∀ (tokens : List (List String)) (g : Grid),
      parseTokens tokens = Except.ok g → (build_solver g).isSome = true := by
    intro tokens g h
    obtain ⟨h1, h2, _, h4⟩ := parseTokens_ok_inv h
    have hready : EncoderReady g := by
      refine ⟨h1, h2, fun t ht => ?_⟩
      obtain ⟨a1, a2, a3, a4⟩ := h4 t ht
      omega
    rw [build_solver_eq hready]
    rfl
  refine ⟨?_, ?_, ?_, hbuild, ?_⟩
  · intro tokens g h
    obtain ⟨h1, h2, h3, h4⟩ := parseTokens_ok_inv h
    exact ⟨h4, h3, h1, h2⟩
  · intro r c i j nb hnb
    exact all_neighbors_bounds hnb
  · intro r c i j nb hnb
    exact orth_neighbors_bounds hnb
  · intro text g h
    exact hbuild (tokenize text) g h

/-- Witness for C10: the loader output for `[["1"], ["0", "T"]]` encodes
without an out-of-range access. -/
theorem C10_all_accesses_in_bounds_witness :
    (build_solver parsedTreeGrid).isSome = true :=
  C10_all_accesses_in_bounds.2.2.2.1 [["1"], ["0", "T"]] parsedTreeGrid
    (by decide)
